import Mathlib

/-!
Shallow embedding of the peer-session and state-synchronization layer of the
`hole` repository (`src/main.go`, the current version of the file).

Modelling conventions:
* `float32` values (positions, sizes, game time, animation phases) are
  modelled as exact rationals `ℚ`; Go `int` values as `ℤ`.
* `time.Time` / `time.Duration` are modelled as `ℤ` nanoseconds; every
  operation that calls `time.Now()` in the source takes the current time
  `now : ℤ` as an explicit argument.
* The Go map `map[int]*NetworkPlayer` is modelled as a `List NetworkPlayer`
  whose entries have pairwise distinct `id`s (insertion order stands for one
  admissible iteration order; Go's map iteration order is unspecified).
* `net.Conn` values are modelled as opaque handles (`ℕ`); rendering fields
  (`Camera`, `Objects`, `Particles`, `BaseZoom`) and all raylib calls are
  presentational and are not part of the embedded state.
* `rl.Color` palette entries are modelled by their index into the six-color
  palette `colors` of `processNetworkMessage`; Go's truncated `%` on `int`
  is `Int.tmod`.
* Go `for` loops over indices are embedded as structurally recursive
  functions driven by a fuel argument that is at least the number of
  remaining iterations.
-/

attribute [local semireducible] Rat.add Rat.mul Rat.sub Rat.inv

/-- Two-dimensional vector, `main.go` `Vector2` (float32 fields as `ℚ`). -/
structure Vector2 where
  x : ℚ
  y : ℚ
deriving DecidableEq, Repr

/-- Player hole state, `main.go` `Hole`. -/
structure Hole where
  position : Vector2
  size : ℚ
  score : ℤ
  speed : ℚ
  animation : ℚ
deriving DecidableEq, Repr

/-- The Go zero value of `Hole`. -/
def zeroHole : Hole :=
  { position := ⟨0, 0⟩, size := 0, score := 0, speed := 0, animation := 0 }

/-- Remote player record, `main.go` `NetworkPlayer`.  The `rl.Color` field is
modelled by the palette index used to pick it. -/
structure NetworkPlayer where
  id : ℤ
  hole : Hole
  name : String
  colorIndex : ℤ
  lastSeen : ℤ
deriving DecidableEq, Repr

/-- Session states, `main.go` `GameState`. -/
inductive GameState where
  | menu
  | singlePlayer
  | multiplayerHost
  | multiplayerClient
  | lobby
  | gameplay
  | gameOver
deriving DecidableEq, Repr

/-- Lobby payload, `main.go` `LobbyUpdate` (JSON keys `player_count`,
`game_started`, `host_ready`, `server_ip,omitempty`). -/
structure LobbyUpdate where
  playerCount : ℤ
  gameStarted : Bool
  hostReady : Bool
  serverIP : String
deriving DecidableEq, Repr

/-- Player-state payload, `main.go` `PlayerUpdate` (JSON keys `position`,
`size`, `score`, `animation`). -/
structure PlayerUpdate where
  position : Vector2
  size : ℚ
  score : ℤ
  animation : ℚ
deriving DecidableEq, Repr

/-- The Go zero value of `LobbyUpdate`. -/
def zeroLobbyUpdate : LobbyUpdate :=
  { playerCount := 0, gameStarted := false, hostReady := false, serverIP := "" }

/-- The Go zero value of `PlayerUpdate`. -/
def zeroPlayerUpdate : PlayerUpdate :=
  { position := ⟨0, 0⟩, size := 0, score := 0, animation := 0 }

/-- The dynamically typed `Data interface{}` field of a decoded
`NetworkMessage`: one of the two supported payloads. -/
inductive MessageData where
  | lobby (u : LobbyUpdate)
  | player (u : PlayerUpdate)
deriving DecidableEq, Repr

/-- Wire message, `main.go` `NetworkMessage` (field `Type` is `msgType`). -/
structure NetworkMessage where
  msgType : String
  playerID : ℤ
  data : MessageData
deriving DecidableEq, Repr

/-- Re-marshalling `msg.Data` and unmarshalling it into a `PlayerUpdate`
(`processNetworkMessage`, `player_update` branch).  A lobby payload shares no
JSON keys with `PlayerUpdate`, so the mismatched case yields the zero value. -/
def asPlayerUpdate : MessageData → PlayerUpdate
  | .player u => u
  | .lobby _ => zeroPlayerUpdate

/-- Re-marshalling `msg.Data` and unmarshalling it into a `LobbyUpdate`
(`processNetworkMessage`, `lobby_update` branch). -/
def asLobbyUpdate : MessageData → LobbyUpdate
  | .lobby u => u
  | .player _ => zeroLobbyUpdate

/-- World width constant of `main.go`. -/
def worldWidth : ℚ := 2400

/-- World height constant of `main.go`. -/
def worldHeight : ℚ := 1600

/-- One second in the `ℤ`-nanosecond model of `time.Duration`. -/
def oneSecond : ℤ := 1000000000

/-- The staleness threshold `5*time.Second` used by `update`. -/
def staleThreshold : ℤ := 5 * oneSecond

/-- Session-relevant state of `main.go` `Game`. -/
structure Game where
  state : GameState
  player : Hole
  networkPlayers : List NetworkPlayer
  gameTime : ℚ
  maxGameTime : ℚ
  menuSelection : ℤ
  isHost : Bool
  serverConn : Option ℕ
  clientConns : List ℕ
  playerID : ℤ
  serverIP : String
  inputText : String
  inputActive : Bool
  lobbyReady : Bool
  minPlayers : ℤ
  localIP : String
  gameStarted : Bool
deriving DecidableEq, Repr

/-- Lookup in the peer map: Go's `g.NetworkPlayers[id]` (`nil` is `none`). -/
def lookupPlayer (ps : List NetworkPlayer) (i : ℤ) : Option NetworkPlayer :=
  ps.find? (fun p => p.id == i)

/-- In-place mutation of the entry for `i` through its pointer. -/
def updatePlayer (ps : List NetworkPlayer) (i : ℤ) (f : NetworkPlayer → NetworkPlayer) :
    List NetworkPlayer :=
  ps.map (fun p => if p.id == i then f p else p)

/-- The fresh record `processNetworkMessage` allocates for an unknown sender:
zero `Hole`, generated name, palette color `colors[msg.PlayerID%len(colors)]`,
zero `LastSeen`. -/
def newNetworkPlayer (i : ℤ) : NetworkPlayer :=
  { id := i, hole := zeroHole, name := "Player " ++ toString i,
    colorIndex := Int.tmod i 6, lastSeen := 0 }

/-- `main.go` `processNetworkMessage` (lines 548-590).  `now` is the value of
`time.Now()` during the call. -/
def processNetworkMessage (g : Game) (msg : NetworkMessage) (now : ℤ) : Game :=
  if msg.msgType = "player_update" then
    let update := asPlayerUpdate msg.data
    let ps0 :=
      if lookupPlayer g.networkPlayers msg.playerID = none then
        g.networkPlayers ++ [newNetworkPlayer msg.playerID]
      else g.networkPlayers
    let ps1 := updatePlayer ps0 msg.playerID (fun p =>
      { p with
          hole := { p.hole with
                      position := update.position, size := update.size,
                      score := update.score, animation := update.animation },
          lastSeen := now })
    { g with networkPlayers := ps1 }
  else if msg.msgType = "lobby_update" then
    let update := asLobbyUpdate msg.data
    let ps1 :=
      if lookupPlayer g.networkPlayers msg.playerID = none then
        g.networkPlayers ++ [{ newNetworkPlayer msg.playerID with lastSeen := now }]
      else updatePlayer g.networkPlayers msg.playerID (fun p => { p with lastSeen := now })
    let g1 := { g with networkPlayers := ps1 }
    if update.gameStarted = true ∧ g1.state = GameState.lobby then
      { g1 with state := GameState.gameplay, gameTime := 0 }
    else g1
  else g

/-- The message built by `sendPlayerUpdate` (lines 592-604). -/
def mkPlayerUpdateMessage (pid : ℤ) (u : PlayerUpdate) : NetworkMessage :=
  { msgType := "player_update", playerID := pid, data := .player u }

/-- The message built by `sendLobbyUpdate` (lines 417-431). -/
def mkLobbyUpdateMessage (pid : ℤ) (u : LobbyUpdate) : NetworkMessage :=
  { msgType := "lobby_update", playerID := pid, data := .lobby u }

/-- `NewGame` (lines 140-154) with the random `PlayerID` and the detected
local IP as parameters; remaining fields are Go zero values. -/
def newGame (pid : ℤ) (localIP : String) : Game :=
  { state := GameState.menu, player := zeroHole, networkPlayers := [],
    gameTime := 0, maxGameTime := 0, menuSelection := 0, isHost := false,
    serverConn := none, clientConns := [], playerID := pid,
    serverIP := localIP ++ ":8080", inputText := "", inputActive := false,
    lobbyReady := false, minPlayers := 2, localIP := localIP,
    gameStarted := false }

/-- `initSinglePlayer` (lines 156-179); camera/object/cursor setup is
presentational and omitted. -/
def initSinglePlayer (g : Game) : Game :=
  { g with
      state := GameState.singlePlayer,
      player := { position := ⟨worldWidth / 2, worldHeight / 2⟩, size := 20,
                  score := 0, speed := 200, animation := 0 },
      gameTime := 0, maxGameTime := 120 }

/-- The state effect of `startServer` (lines 479-499): on a successful
`net.Listen` the goroutine sets `IsHost`; on failure it only logs. -/
def startServer (g : Game) (listenOk : Bool) : Game :=
  if listenOk then { g with isHost := true } else g

/-- The state effect of `connectToServer` (lines 501-516): on a successful
dial the goroutine stores the connection, runs `initSinglePlayer` and moves to
the lobby; on failure it only logs. -/
def connectToServer (g : Game) (dialOk : Bool) : Game :=
  if dialOk then
    { initSinglePlayer { g with serverConn := some 0 } with state := GameState.lobby }
  else g

/-- The `KeyEnter` branch of `handleMenuInput` (lines 376-389). -/
def handleMenuEnter (g : Game) (listenOk : Bool) : Game :=
  if g.menuSelection = 0 then
    { initSinglePlayer g with state := GameState.gameplay }
  else if g.menuSelection = 1 then
    { initSinglePlayer (startServer g listenOk) with state := GameState.lobby }
  else if g.menuSelection = 2 then
    { g with inputActive := true, inputText := g.serverIP }
  else g

/-- The `KeyUp` branch of `handleMenuInput` (lines 364-369). -/
def handleMenuUp (g : Game) : Game :=
  let m := g.menuSelection - 1
  { g with menuSelection := if m < 0 then 2 else m }

/-- The `KeyDown` branch of `handleMenuInput` (lines 370-375). -/
def handleMenuDown (g : Game) : Game :=
  let m := g.menuSelection + 1
  { g with menuSelection := if m > 2 then 0 else m }

/-- `startGame` (lines 447-456); the trailing `sendLobbyUpdate` does not
mutate `Game`. -/
def startGame (g : Game) : Game :=
  { g with gameStarted := true, state := GameState.gameplay, gameTime := 0 }

/-- The `KeySpace` branch of `handleLobbyInput` (lines 392-402): toggle the
ready flag, then, on the host, start the game when the minimum player count
is reached and the post-toggle flag is set. -/
def handleLobbySpace (g : Game) : Game :=
  let g1 := { g with lobbyReady := !g.lobbyReady }
  if g1.isHost = true ∧
      ((g1.networkPlayers.length : ℤ) + 1 ≥ g1.minPlayers ∧ g1.lobbyReady = true) then
    startGame g1
  else g1

/-- The `KeyEscape` branch of `handleLobbyInput` (lines 403-414): back to the
menu, flags reset, client connection closed; the peer map is not touched. -/
def handleLobbyEscape (g : Game) : Game :=
  { g with state := GameState.menu, lobbyReady := false, gameStarted := false,
           serverConn := none }

/-- The `KeyEnter` branch of `handleTextInput` (lines 469-473). -/
def handleTextInputEnter (g : Game) (dialOk : Bool) : Game :=
  connectToServer { g with serverIP := g.inputText, inputActive := false } dialOk

/-- Go's `int(x)` conversion from a float: truncation toward zero. -/
def goTruncInt (q : ℚ) : ℤ :=
  if 0 ≤ q then ⌊q⌋ else ⌈q⌉

/-- The housekeeping part of the `StateGameplay` branch of `update`
(lines 634-655): advance the clock, sweep stale peers, animate, check for
game over.  `now` is the value of `time.Now()` during the sweep. -/
def tickGameplay (g : Game) (dt : ℚ) (now : ℤ) : Game :=
  if g.state = GameState.gameplay then
    let g1 := if g.gameTime < g.maxGameTime then { g with gameTime := g.gameTime + dt } else g
    let g2 := { g1 with
                  networkPlayers :=
                    g1.networkPlayers.filter
                      (fun p => !decide (staleThreshold < now - p.lastSeen)) }
    let g3 := { g2 with player := { g2.player with animation := g2.player.animation + dt * 2 } }
    if g3.gameTime ≥ g3.maxGameTime then { g3 with state := GameState.gameOver } else g3
  else g

/-- The broadcast condition at the end of `update` (lines 781-786):
`g.State == StateGameplay && (g.IsHost || g.ServerConn != nil) &&
int(g.GameTime*60)%10 == 0`. -/
def sendsThisTick (g : Game) : Bool :=
  decide (g.state = GameState.gameplay) && (g.isHost || g.serverConn.isSome) &&
    decide (Int.tmod (goTruncInt (g.gameTime * 60)) 10 = 0)

/-- Number of player-update broadcast attempts over `n` consecutive gameplay
ticks of length `dt`: each tick first runs the housekeeping of `update`, then
evaluates the broadcast condition. -/
def countBroadcasts (g : Game) (dt : ℚ) (now : ℤ) : ℕ → ℕ
  | 0 => 0
  | n + 1 =>
    let g1 := tickGameplay g dt now
    (if sendsThisTick g1 then 1 else 0) + countBroadcasts g1 dt now n

/-- Fold of `processNetworkMessage` over a receive sequence; each message is
paired with the `time.Now()` value at its arrival. -/
def processMessages (g : Game) (ms : List (NetworkMessage × ℤ)) : Game :=
  ms.foldl (fun g m => processNetworkMessage g m.1 m.2) g

/-- Fold of `processNetworkMessage` over a sequence of player updates,
given as (sender id, payload, arrival time) triples. -/
def applyPlayerUpdates (g : Game) (us : List (ℤ × PlayerUpdate × ℤ)) : Game :=
  us.foldl (fun g m => processNetworkMessage g (mkPlayerUpdateMessage m.1 m.2.1) m.2.2) g

/-- The last update issued by sender `i` in the sequence, if any. -/
def lastFor (us : List (ℤ × PlayerUpdate × ℤ)) (i : ℤ) : Option (PlayerUpdate × ℤ) :=
  match us with
  | [] => none
  | m :: rest =>
    match lastFor rest i with
    | some r => some r
    | none => if m.1 = i then some m.2 else none

/-- Result row, `main.go` `PlayerResult`. -/
structure PlayerResult where
  name : String
  size : ℚ
  score : ℤ
deriving DecidableEq, Repr

/-- The unsorted results list built by `getGameResults` (lines 821-832):
the local player first, then the known peers in iteration order. -/
def resultsUnsorted (g : Game) : List PlayerResult :=
  { name := "You", size := g.player.size, score := g.player.score } ::
    g.networkPlayers.map (fun p =>
      { name := p.name, size := p.hole.size, score := p.hole.score })

/-- The swap `results[i], results[j] = results[j], results[i]`. -/
def swapIdx (l : List PlayerResult) (i j : ℕ) : List PlayerResult :=
  match l[i]?, l[j]? with
  | some a, some b => (l.set i b).set j a
  | _, _ => l

/-- The comparison `results[j].Size > results[i].Size` of the sort loop. -/
def swapGreater (l : List PlayerResult) (i j : ℕ) : Bool :=
  match l[i]?, l[j]? with
  | some a, some b => decide (a.size < b.size)
  | _, _ => false

/-- Inner loop `for j := i + 1; j < len(results); j++` of `getGameResults`
(lines 835-841), fuel-driven; the fuel bounds the remaining iterations. -/
def innerFromFuel (i : ℕ) : ℕ → List PlayerResult → ℕ → List PlayerResult
  | 0, l, _ => l
  | fuel + 1, l, j =>
    if j < l.length then
      if swapGreater l i j then innerFromFuel i fuel (swapIdx l i j) (j + 1)
      else innerFromFuel i fuel l (j + 1)
    else l

/-- Inner sort loop starting at index `j`, with enough fuel to finish. -/
def innerFrom (l : List PlayerResult) (i j : ℕ) : List PlayerResult :=
  innerFromFuel i l.length l j

/-- Outer loop `for i := 0; i < len(results)-1; i++` of `getGameResults`,
fuel-driven. -/
def outerFromFuel : ℕ → List PlayerResult → ℕ → List PlayerResult
  | 0, l, _ => l
  | fuel + 1, l, i =>
    if i + 1 < l.length then outerFromFuel fuel (innerFrom l i (i + 1)) (i + 1)
    else l

/-- `main.go` `getGameResults` (lines 821-844): collect the local player and
all peers, then sort by size descending with the double swap loop. -/
def getGameResults (g : Game) : List PlayerResult :=
  let results := resultsUnsorted g
  outerFromFuel results.length results 0

/-- Specification version of one pass of the inner loop: scan `rest` keeping
the current occupant of position `i` in `cur`; whenever a scanned element is
strictly larger, it becomes the new occupant and the old one is written back
at the scanned position. -/
def selectMax (cur : PlayerResult) : List PlayerResult → PlayerResult × List PlayerResult
  | [] => (cur, [])
  | x :: xs =>
    if cur.size < x.size then
      let r := selectMax x xs
      (r.1, cur :: r.2)
    else
      let r := selectMax cur xs
      (r.1, x :: r.2)

/-- Specification version of the full sort: repeatedly select the maximum of
the remaining suffix.  The fuel is the length of the list. -/
def sortLoopAux : ℕ → List PlayerResult → List PlayerResult
  | 0, _ => []
  | _ + 1, [] => []
  | n + 1, x :: xs =>
    let r := selectMax x xs
    r.1 :: sortLoopAux n r.2

/-- Specification version of the sort performed by `getGameResults`. -/
def sortLoop (l : List PlayerResult) : List PlayerResult :=
  sortLoopAux l.length l

/-- JSON values, the image of `encoding/json` marshalling. -/
inductive Json where
  | str (s : String)
  | num (q : ℚ)
  | bool (b : Bool)
  | null
  | obj (fields : List (String × Json))

/-- Field lookup in a JSON object. -/
def jLookup (fs : List (String × Json)) (k : String) : Option Json :=
  (fs.find? (fun p => p.1 == k)).map (fun p => p.2)

/-- Unmarshal a rational-valued field; a missing field keeps the Go zero
value, a field of the wrong JSON type is an unmarshalling error. -/
def getRatField (fs : List (String × Json)) (k : String) : Option ℚ :=
  match jLookup fs k with
  | none => some 0
  | some (.num q) => some q
  | some _ => none

/-- Unmarshal an integer-valued field (Go `int`). -/
def getIntField (fs : List (String × Json)) (k : String) : Option ℤ :=
  match jLookup fs k with
  | none => some 0
  | some (.num q) => if q.den = 1 then some q.num else none
  | some _ => none

/-- Unmarshal a boolean field. -/
def getBoolField (fs : List (String × Json)) (k : String) : Option Bool :=
  match jLookup fs k with
  | none => some false
  | some (.bool b) => some b
  | some _ => none

/-- Unmarshal a string field. -/
def getStrField (fs : List (String × Json)) (k : String) : Option String :=
  match jLookup fs k with
  | none => some ""
  | some (.str s) => some s
  | some _ => none

/-- Marshal a `Vector2`: the struct has no JSON tags, so Go emits the
exported field names `X` and `Y`. -/
def encodeVector2 (v : Vector2) : Json :=
  .obj [("X", .num v.x), ("Y", .num v.y)]

/-- Unmarshal a `Vector2`. -/
def decodeVector2Json : Json → Option Vector2
  | .obj fs =>
    match getRatField fs "X", getRatField fs "Y" with
    | some x, some y => some ⟨x, y⟩
    | _, _ => none
  | .null => some ⟨0, 0⟩
  | _ => none

/-- Unmarshal a `Vector2`-valued field. -/
def getVector2Field (fs : List (String × Json)) (k : String) : Option Vector2 :=
  match jLookup fs k with
  | none => some ⟨0, 0⟩
  | some j => decodeVector2Json j

/-- Marshal a `PlayerUpdate` per its struct tags. -/
def encodePlayerUpdateJson (u : PlayerUpdate) : Json :=
  .obj [("position", encodeVector2 u.position), ("size", .num u.size),
        ("score", .num (u.score : ℚ)), ("animation", .num u.animation)]

/-- Unmarshal a `PlayerUpdate` per its struct tags. -/
def decodePlayerUpdateJson : Json → Option PlayerUpdate
  | .obj fs =>
    match getVector2Field fs "position", getRatField fs "size",
        getIntField fs "score", getRatField fs "animation" with
    | some p, some s, some sc, some a => some ⟨p, s, sc, a⟩
    | _, _, _, _ => none
  | .null => some zeroPlayerUpdate
  | _ => none

/-- Marshal a `LobbyUpdate` per its struct tags; `server_ip` carries
`omitempty`, so the empty string is not emitted. -/
def encodeLobbyUpdateJson (u : LobbyUpdate) : Json :=
  .obj ([("player_count", .num (u.playerCount : ℚ)),
         ("game_started", .bool u.gameStarted),
         ("host_ready", .bool u.hostReady)] ++
        (if u.serverIP = "" then [] else [("server_ip", .str u.serverIP)]))

/-- Unmarshal a `LobbyUpdate` per its struct tags. -/
def decodeLobbyUpdateJson : Json → Option LobbyUpdate
  | .obj fs =>
    match getIntField fs "player_count", getBoolField fs "game_started",
        getBoolField fs "host_ready", getStrField fs "server_ip" with
    | some c, some g, some h, some s => some ⟨c, g, h, s⟩
    | _, _, _, _ => none
  | .null => some zeroLobbyUpdate
  | _ => none

/-- Marshal a `NetworkMessage` as `sendPlayerUpdate`/`sendLobbyUpdate` do
(struct tags `type`, `player_id`, `data`). -/
def encodeNetworkMessage (m : NetworkMessage) : Json :=
  .obj [("type", .str m.msgType), ("player_id", .num (m.playerID : ℚ)),
        ("data",
          match m.data with
          | .lobby u => encodeLobbyUpdateJson u
          | .player u => encodePlayerUpdateJson u)]

/-- Unmarshal a wire frame into a typed message: read the kind tag and the
sender id, then decode the payload according to the kind, as the
`decoder.Decode`/`processNetworkMessage` pipeline does.  Unsupported kinds
and malformed frames fail. -/
def decodeNetworkMessage : Json → Option NetworkMessage
  | .obj fs =>
    match getStrField fs "type", getIntField fs "player_id" with
    | some t, some pid =>
      if t = "player_update" then
        match (match jLookup fs "data" with
               | none => some zeroPlayerUpdate
               | some d => decodePlayerUpdateJson d) with
        | some u => some ⟨t, pid, .player u⟩
        | none => none
      else if t = "lobby_update" then
        match (match jLookup fs "data" with
               | none => some zeroLobbyUpdate
               | some d => decodeLobbyUpdateJson d) with
        | some u => some ⟨t, pid, .lobby u⟩
        | none => none
      else none
    | _, _ => none
  | _ => none

/-- Host/broadcast connection bookkeeping of the transport layer.
`clientConns` is `Game.ClientConns`; `closedConns` records connections whose
receive loop has exited and that were closed by `handleClient`. -/
structure HostNet where
  clientConns : List ℕ
  closedConns : List ℕ
deriving DecidableEq, Repr

/-- Events that touch the host connection set: `startServer`'s accept loop
appends (line 495), `handleClient`'s loop exit closes the connection
(lines 525-534) without touching `ClientConns`, and the broadcast paths of
`sendPlayerUpdate`/`sendLobbyUpdate` iterate without mutating. -/
inductive HostEvent where
  | accept (c : ℕ)
  | recvLoopExit (c : ℕ)
  | broadcast
deriving DecidableEq, Repr

/-- Effect of one transport event on the host connection bookkeeping. -/
def hostStep (s : HostNet) (e : HostEvent) : HostNet :=
  match e with
  | .accept c => { s with clientConns := s.clientConns ++ [c] }
  | .recvLoopExit c => { s with closedConns := s.closedConns ++ [c] }
  | .broadcast => s

/-- The connections a host broadcast writes to (`sendPlayerUpdate`
lines 605-616): all of `ClientConns`, with no liveness check. -/
def broadcastTargets (s : HostNet) : List ℕ := s.clientConns

/-- The concrete game used for the broadcast-cadence window: gameplay state
with an active multiplayer role (host), clock at the start of the window. -/
def broadcastWindowGame : Game :=
  { newGame 7 "host" with
      state := GameState.gameplay, isHost := true, maxGameTime := 120 }

/-- Concrete peer for the C2 witness (age exactly at the boundary). -/
def boundaryPeer : NetworkPlayer := newNetworkPlayer 5

/-- Concrete gameplay-state game for the C2 witness. -/
def boundaryGame : Game :=
  { newGame 1 "h" with
      state := GameState.gameplay
      maxGameTime := 120
      networkPlayers := [boundaryPeer] }

/-- Concrete lobby-state host game below the player threshold for C3. -/
def lobbyAloneGame : Game :=
  { newGame 1 "h" with state := GameState.lobby, isHost := true }

/-- Concrete unready client lobby game for C6. -/
def clientLobbyGame : Game :=
  { newGame 9 "c" with state := GameState.lobby, serverConn := some 0 }

/-- Concrete host start announcement for C6. -/
def startAnnouncement : LobbyUpdate :=
  { playerCount := 2, gameStarted := true, hostReady := true, serverIP := "h:8080" }

/-- Menu state reached by hosting a lobby, having a peer join, and escaping
back to the menu: the peer map is carried along, so selecting single player
from here enters gameplay with a non-empty peer map. -/
def escapedMenuGame : Game :=
  handleMenuUp (handleLobbyEscape
    (processNetworkMessage
      (handleMenuEnter (handleMenuDown (newGame 1 "192.168.0.5")) true)
      (mkLobbyUpdateMessage 42
        { playerCount := 2, gameStarted := false, hostReady := false, serverIP := "" })
      1000))

/-- Game-over game matching the ranking example of the specification:
peer A of size 40, peer B of size 55, local player of size 30. -/
def rankingExampleGame : Game :=
  { newGame 1 "h" with
      state := GameState.gameOver
      player := { zeroHole with size := 30 }
      networkPlayers :=
        [{ id := 2, hole := { zeroHole with size := 40 }, name := "A",
           colorIndex := 2, lastSeen := 0 },
         { id := 3, hole := { zeroHole with size := 55 }, name := "B",
           colorIndex := 3, lastSeen := 0 }] }

/-- Game-over game exhibiting the instability of the results sort: the local
player (size 5) ties with peer C while peers B and D (size 7) rank above. -/
def tieExampleGame : Game :=
  { newGame 1 "h" with
      state := GameState.gameOver
      player := { zeroHole with size := 5 }
      networkPlayers :=
        [{ id := 2, hole := { zeroHole with size := 7 }, name := "B",
           colorIndex := 2, lastSeen := 0 },
         { id := 3, hole := { zeroHole with size := 5 }, name := "C",
           colorIndex := 3, lastSeen := 0 },
         { id := 4, hole := { zeroHole with size := 7 }, name := "D",
           colorIndex := 4, lastSeen := 0 }] }

/-- Concrete sequence of player updates for the C1 witness: two updates from
sender 3 (the second must win) and one from sender 8. -/
def witnessUpdates : List (ℤ × PlayerUpdate × ℤ) :=
  [(3, { position := ⟨1, 2⟩, size := 21, score := 4, animation := 1 }, 10),
   (8, { position := ⟨5, 6⟩, size := 30, score := 9, animation := 2 }, 11),
   (3, { position := ⟨7, 8⟩, size := 22, score := 5, animation := 3 }, 12)]

/-- Concrete receive sequence for the C10 witness: only lobby updates from
sender 7. -/
def witnessLobbyMessages : List (NetworkMessage × ℤ) :=
  [(mkLobbyUpdateMessage 7 zeroLobbyUpdate, 50),
   (mkLobbyUpdateMessage 7 { zeroLobbyUpdate with playerCount := 2 }, 60)]

/-- C2: the staleness sweep run by each gameplay tick removes a peer record
iff its age `now - lastSeen` strictly exceeds 5 seconds; a record whose age
is exactly 5 seconds is retained. -/
theorem c2_sweep_staleness :
    ∀ (g : Game) (dt : ℚ) (now : ℤ) (p : NetworkPlayer),
      g.state = GameState.gameplay →
      ((p ∈ (tickGameplay g dt now).networkPlayers ↔
          p ∈ g.networkPlayers ∧ ¬(staleThreshold < now - p.lastSeen))
       ∧ (now - p.lastSeen = staleThreshold →
           (p ∈ (tickGameplay g dt now).networkPlayers ↔ p ∈ g.networkPlayers))) := by
  intro g dt now p hs
  have hnp : (tickGameplay g dt now).networkPlayers =
      g.networkPlayers.filter (fun p => !decide (staleThreshold < now - p.lastSeen)) := by
    unfold tickGameplay
    rw [if_pos hs]
    dsimp only
    split <;> split <;> rfl
  constructor
  · rw [hnp]
    simp [List.mem_filter]
  · intro hb
    rw [hnp]
    simp [List.mem_filter, hb]

theorem c2_sweep_staleness_witness :
    boundaryGame.state = GameState.gameplay ∧
      ((boundaryPeer ∈ (tickGameplay boundaryGame 1 staleThreshold).networkPlayers ↔
          boundaryPeer ∈ boundaryGame.networkPlayers ∧
            ¬(staleThreshold < staleThreshold - boundaryPeer.lastSeen))
       ∧ (staleThreshold - boundaryPeer.lastSeen = staleThreshold →
           (boundaryPeer ∈ (tickGameplay boundaryGame 1 staleThreshold).networkPlayers ↔
             boundaryPeer ∈ boundaryGame.networkPlayers))) :=
  ⟨by decide, c2_sweep_staleness boundaryGame 1 staleThreshold boundaryPeer (by decide)⟩

/-- C3: on the host, `startGame` is reachable from the lobby ready-toggle
only when the participant count (known peers + 1) is at least the minimum of
2 and the post-toggle ready flag is set; toggling below the threshold never
moves the session state out of the lobby. -/
theorem c3_lobby_start_guard :
    ∀ g : Game, g.state = GameState.lobby → g.minPlayers = 2 →
      (((handleLobbySpace g).state ≠ GameState.lobby →
          g.isHost = true ∧ (g.networkPlayers.length : ℤ) + 1 ≥ 2 ∧
            (handleLobbySpace g).lobbyReady = true)
       ∧ ((g.networkPlayers.length : ℤ) + 1 < 2 →
          (handleLobbySpace g).state = GameState.lobby)) := by
  intro g hs hm
  unfold handleLobbySpace startGame
  simp only [hm]
  split
  case isTrue h =>
    refine ⟨fun _ => ⟨h.1, h.2.1, h.2.2⟩, fun hlt => ?_⟩
    exact absurd h.2.1 (by omega)
  case isFalse h =>
    exact ⟨fun hne => absurd hs hne, fun _ => hs⟩

theorem c3_lobby_start_guard_witness :
    (lobbyAloneGame.state = GameState.lobby ∧ lobbyAloneGame.minPlayers = 2 ∧
      (lobbyAloneGame.networkPlayers.length : ℤ) + 1 < 2 → False) ∨
    ((lobbyAloneGame.state = GameState.lobby ∧ lobbyAloneGame.minPlayers = 2) ∧
      (((handleLobbySpace lobbyAloneGame).state ≠ GameState.lobby →
          lobbyAloneGame.isHost = true ∧
            (lobbyAloneGame.networkPlayers.length : ℤ) + 1 ≥ 2 ∧
            (handleLobbySpace lobbyAloneGame).lobbyReady = true)
       ∧ ((lobbyAloneGame.networkPlayers.length : ℤ) + 1 < 2 →
          (handleLobbySpace lobbyAloneGame).state = GameState.lobby))) :=
  Or.inr ⟨⟨by decide, by decide⟩,
    c3_lobby_start_guard lobbyAloneGame (by decide) (by decide)⟩

/-- C5 (amended): from the menu, selecting single player always lands in
gameplay and leaves the peer map unchanged (zero peers only if the menu state
had zero peers); selecting host or join always lands in the lobby first
(join after a successful dial) and never directly in gameplay. -/
theorem c5_menu_transitions :
    ∀ (g : Game) (listenOk dialOk : Bool), g.state = GameState.menu →
      ((g.menuSelection = 0 →
          (handleMenuEnter g listenOk).state = GameState.gameplay ∧
          (handleMenuEnter g listenOk).networkPlayers = g.networkPlayers)
       ∧ (g.menuSelection = 1 →
          (handleMenuEnter g listenOk).state = GameState.lobby)
       ∧ (g.menuSelection = 2 →
          (handleMenuEnter g listenOk).state = GameState.menu ∧
          (handleTextInputEnter (handleMenuEnter g listenOk) dialOk).state ≠
            GameState.gameplay ∧
          (dialOk = true →
            (handleTextInputEnter (handleMenuEnter g listenOk) dialOk).state =
              GameState.lobby))) := by
  intro g listenOk dialOk hs
  refine ⟨fun h0 => ?_, fun h1 => ?_, fun h2 => ?_⟩
  · simp [handleMenuEnter, initSinglePlayer, h0]
  · cases listenOk <;>
      simp [handleMenuEnter, initSinglePlayer, startServer, h1]
  · cases dialOk <;>
      simp [handleMenuEnter, handleTextInputEnter, connectToServer,
        initSinglePlayer, h2, hs]

theorem c5_single_player_peers_counterexample :
    escapedMenuGame.state = GameState.menu ∧ escapedMenuGame.menuSelection = 0 ∧
    (handleMenuEnter escapedMenuGame true).state = GameState.gameplay ∧
    (handleMenuEnter escapedMenuGame true).networkPlayers ≠ [] := by decide

theorem c5_menu_transitions_witness :
    escapedMenuGame.state = GameState.menu ∧
    ((handleMenuEnter escapedMenuGame true).state = GameState.gameplay ∧
      (handleMenuEnter escapedMenuGame true).networkPlayers =
        escapedMenuGame.networkPlayers) :=
  ⟨by decide,
    (c5_menu_transitions escapedMenuGame true true (by decide)).1 (by decide)⟩

/-- C6: a non-host process in the lobby that receives a lobby update with
`GameStarted = true` transitions to gameplay immediately, regardless of its
own ready flag. -/
theorem c6_client_follows_start :
    ∀ (g : Game) (pid : ℤ) (u : LobbyUpdate) (now : ℤ),
      g.state = GameState.lobby → g.isHost = false → u.gameStarted = true →
      (processNetworkMessage g (mkLobbyUpdateMessage pid u) now).state =
        GameState.gameplay := by
  intro g pid u now hs _ hg
  unfold processNetworkMessage
  simp [mkLobbyUpdateMessage, asLobbyUpdate, hg, hs]

theorem c6_client_follows_start_witness :
    (clientLobbyGame.state = GameState.lobby ∧ clientLobbyGame.isHost = false ∧
      startAnnouncement.gameStarted = true) ∧
    (processNetworkMessage clientLobbyGame (mkLobbyUpdateMessage 3 startAnnouncement)
        100).state = GameState.gameplay :=
  ⟨⟨by decide, by decide, by decide⟩,
    c6_client_follows_start clientLobbyGame 3 startAnnouncement 100
      (by decide) (by decide) (by decide)⟩

/-- C7: over a simulated 1-second window of 60 gameplay ticks with broadcast
interval 10, the condition `int(GameTime*60)%10 == 0` fires exactly 6 times
for a process with an active multiplayer role (time modelled with exact
rational arithmetic, one tick being 1/60 s). -/
theorem c7_broadcast_cadence :
    countBroadcasts broadcastWindowGame (1 / 60) 0 60 = 6 := by decide

/-- C9: the host connection set only ever grows — each accepted connection is
appended, no event removes one (a receive-loop exit only closes the socket),
and every broadcast targets every connection ever accepted. -/
theorem c9_client_conns_grow_only :
    ∀ (s : HostNet) (es : List HostEvent),
      (∃ t, (es.foldl hostStep s).clientConns = s.clientConns ++ t) ∧
      (∀ c, c ∈ s.clientConns → c ∈ broadcastTargets (es.foldl hostStep s)) := by
  intro s es
  induction es generalizing s with
  | nil => exact ⟨⟨[], by simp⟩, fun c hc => hc⟩
  | cons e es ih =>
    obtain ⟨⟨t, ht⟩, hmem⟩ := ih (hostStep s e)
    have hgrow : ∃ u, (hostStep s e).clientConns = s.clientConns ++ u := by
      cases e with
      | accept c => exact ⟨[c], rfl⟩
      | recvLoopExit c => exact ⟨[], by simp [hostStep]⟩
      | broadcast => exact ⟨[], by simp [hostStep]⟩
    obtain ⟨u, hu⟩ := hgrow
    constructor
    · exact ⟨u ++ t, by simp only [List.foldl_cons, ht, hu, List.append_assoc]⟩
    · intro c hc
      apply hmem
      rw [hu]
      exact List.mem_append_left _ hc

theorem c9_client_conns_grow_only_witness :
    3 ∈ (HostNet.mk [3] []).clientConns ∧
      3 ∈ broadcastTargets
          (List.foldl hostStep (HostNet.mk [3] [])
            [HostEvent.accept 4, HostEvent.recvLoopExit 3, HostEvent.broadcast]) :=
  ⟨by decide,
    (c9_client_conns_grow_only (HostNet.mk [3] [])
        [HostEvent.accept 4, HostEvent.recvLoopExit 3, HostEvent.broadcast]).2
      3 (by decide)⟩

/-- Lookup distributes over list append. -/
theorem lookupPlayer_append (ps qs : List NetworkPlayer) (i : ℤ) :
    lookupPlayer (ps ++ qs) i = (lookupPlayer ps i).or (lookupPlayer qs i) := by
  simp [lookupPlayer, List.find?_append]

/-- A lookup fails exactly when no record carries the id. -/
theorem lookupPlayer_eq_none_iff (ps : List NetworkPlayer) (i : ℤ) :
    lookupPlayer ps i = none ↔ ∀ p ∈ ps, p.id ≠ i := by
  simp [lookupPlayer, List.find?_eq_none]

/-- A found record carries the looked-up id. -/
theorem lookupPlayer_id (ps : List NetworkPlayer) (i : ℤ) (p : NetworkPlayer)
    (h : lookupPlayer ps i = some p) : p.id = i := by
  have := List.find?_some h
  simpa using this

/-- A lookup succeeds exactly when the id is among the stored ids. -/
theorem lookupPlayer_isSome_iff (ps : List NetworkPlayer) (i : ℤ) :
    (lookupPlayer ps i).isSome ↔ i ∈ ps.map NetworkPlayer.id := by
  simp [lookupPlayer, List.find?_isSome, List.mem_map]

/-- Lookup of a singleton at the stored id. -/
theorem lookupPlayer_singleton_self (p : NetworkPlayer) :
    lookupPlayer [p] p.id = some p := by
  simp [lookupPlayer]

/-- Lookup of a singleton at another id. -/
theorem lookupPlayer_singleton_ne (p : NetworkPlayer) (i : ℤ) (h : p.id ≠ i) :
    lookupPlayer [p] i = none := by
  simp [lookupPlayer, h]

/-- Lookup through an id-preserving in-place update. -/
theorem lookupPlayer_updatePlayer (ps : List NetworkPlayer) (i j : ℤ)
    (f : NetworkPlayer → NetworkPlayer) (hf : ∀ p, (f p).id = p.id) :
    lookupPlayer (updatePlayer ps i f) j =
      (lookupPlayer ps j).map (fun p => if p.id == i then f p else p) := by
  induction ps with
  | nil => rfl
  | cons p ps ih =>
    have hid : (if p.id == i then f p else p).id = p.id := by
      split <;> simp [hf]
    simp only [updatePlayer, List.map_cons, lookupPlayer] at ih ⊢
    rw [List.find?_cons, List.find?_cons, hid]
    cases hb : (p.id == j) with
    | true => simp [hb]
    | false =>
      simp only [hb]
      exact ih

/-- The ids are untouched by an id-preserving in-place update. -/
theorem ids_updatePlayer (ps : List NetworkPlayer) (i : ℤ)
    (f : NetworkPlayer → NetworkPlayer) (hf : ∀ p, (f p).id = p.id) :
    (updatePlayer ps i f).map NetworkPlayer.id = ps.map NetworkPlayer.id := by
  induction ps with
  | nil => rfl
  | cons p ps ih =>
    simp only [updatePlayer, List.map_cons] at ih ⊢
    rw [ih]
    congr 1
    split <;> simp [hf]

/-- Lookup at the updated id. -/
theorem lookupPlayer_updatePlayer_self (ps : List NetworkPlayer) (i : ℤ)
    (f : NetworkPlayer → NetworkPlayer) (hf : ∀ p, (f p).id = p.id) :
    lookupPlayer (updatePlayer ps i f) i = (lookupPlayer ps i).map f := by
  rw [lookupPlayer_updatePlayer ps i i f hf]
  cases h : lookupPlayer ps i with
  | none => rfl
  | some p => simp [lookupPlayer_id ps i p h]

/-- Lookup at a different id than the updated one. -/
theorem lookupPlayer_updatePlayer_ne (ps : List NetworkPlayer) (i j : ℤ)
    (f : NetworkPlayer → NetworkPlayer) (hf : ∀ p, (f p).id = p.id) (hne : j ≠ i) :
    lookupPlayer (updatePlayer ps i f) j = lookupPlayer ps j := by
  rw [lookupPlayer_updatePlayer ps i j f hf]
  cases h : lookupPlayer ps j with
  | none => rfl
  | some p =>
    have hp := lookupPlayer_id ps j p h
    simp [hp, hne]

/-- Peer-map shape of the `player_update` branch of `processNetworkMessage`. -/
theorem processPlayer_networkPlayers (g : Game) (m : NetworkMessage) (now : ℤ)
    (ht : m.msgType = "player_update") :
    (processNetworkMessage g m now).networkPlayers =
      updatePlayer
        (if lookupPlayer g.networkPlayers m.playerID = none then
          g.networkPlayers ++ [newNetworkPlayer m.playerID]
         else g.networkPlayers)
        m.playerID
        (fun p =>
          { p with
              hole := { p.hole with
                          position := (asPlayerUpdate m.data).position,
                          size := (asPlayerUpdate m.data).size,
                          score := (asPlayerUpdate m.data).score,
                          animation := (asPlayerUpdate m.data).animation },
              lastSeen := now }) := by
  unfold processNetworkMessage
  rw [if_pos ht]

/-- Peer-map shape of the `lobby_update` branch of `processNetworkMessage`. -/
theorem processLobby_networkPlayers (g : Game) (m : NetworkMessage) (now : ℤ)
    (ht : m.msgType = "lobby_update") :
    (processNetworkMessage g m now).networkPlayers =
      (if lookupPlayer g.networkPlayers m.playerID = none then
        g.networkPlayers ++ [{ newNetworkPlayer m.playerID with lastSeen := now }]
       else updatePlayer g.networkPlayers m.playerID (fun p => { p with lastSeen := now })) := by
  unfold processNetworkMessage
  rw [if_neg (by rw [ht]; decide), if_pos ht]
  dsimp only
  split <;> rfl

/-- A message of an unsupported kind is ignored. -/
theorem process_unknown_type (g : Game) (m : NetworkMessage) (now : ℤ)
    (h1 : m.msgType ≠ "player_update") (h2 : m.msgType ≠ "lobby_update") :
    processNetworkMessage g m now = g := by
  unfold processNetworkMessage
  rw [if_neg h1, if_neg h2]

/-- A processed message leaves every other sender's record untouched. -/
theorem lookup_process_other (g : Game) (m : NetworkMessage) (now : ℤ) (i : ℤ)
    (hne : m.playerID ≠ i) :
    lookupPlayer (processNetworkMessage g m now).networkPlayers i =
      lookupPlayer g.networkPlayers i := by
  by_cases h1 : m.msgType = "player_update"
  · rw [processPlayer_networkPlayers g m now h1, lookupPlayer_updatePlayer_ne]
    · split
      · rw [lookupPlayer_append, lookupPlayer_singleton_ne _ _ hne, Option.or_none]
      · rfl
    · exact fun p => rfl
    · exact Ne.symm hne
  · by_cases h2 : m.msgType = "lobby_update"
    · rw [processLobby_networkPlayers g m now h2]
      split
      · rw [lookupPlayer_append, lookupPlayer_singleton_ne _ _ hne, Option.or_none]
      · rw [lookupPlayer_updatePlayer_ne]
        · exact fun p => rfl
        · exact Ne.symm hne
    · rw [process_unknown_type g m now h1 h2]

/-- After a `player_update`, the sender's record exists and carries exactly
the payload snapshot and the arrival time. -/
theorem lookup_processPlayer_self (g : Game) (m : NetworkMessage) (now : ℤ)
    (ht : m.msgType = "player_update") :
    ∃ p, lookupPlayer (processNetworkMessage g m now).networkPlayers m.playerID = some p ∧
      p.hole.position = (asPlayerUpdate m.data).position ∧
      p.hole.size = (asPlayerUpdate m.data).size ∧
      p.hole.score = (asPlayerUpdate m.data).score ∧
      p.hole.animation = (asPlayerUpdate m.data).animation ∧
      p.lastSeen = now := by
  rw [processPlayer_networkPlayers g m now ht, lookupPlayer_updatePlayer_self]
  · split
    case isTrue h =>
      have hsingle : lookupPlayer [newNetworkPlayer m.playerID] m.playerID =
          some (newNetworkPlayer m.playerID) := by
        simp [lookupPlayer, newNetworkPlayer]
      rw [lookupPlayer_append, h, Option.none_or, hsingle]
      exact ⟨_, rfl, rfl, rfl, rfl, rfl, rfl⟩
    case isFalse h =>
      obtain ⟨p, hp⟩ := Option.ne_none_iff_exists'.mp h
      rw [hp]
      exact ⟨_, rfl, rfl, rfl, rfl, rfl, rfl⟩
  · exact fun p => rfl

/-- A `lobby_update` from an unknown sender creates the record with the zero
snapshot and the arrival time. -/
theorem lookup_processLobby_self_none (g : Game) (m : NetworkMessage) (now : ℤ)
    (ht : m.msgType = "lobby_update")
    (hn : lookupPlayer g.networkPlayers m.playerID = none) :
    lookupPlayer (processNetworkMessage g m now).networkPlayers m.playerID =
      some { newNetworkPlayer m.playerID with lastSeen := now } := by
  rw [processLobby_networkPlayers g m now ht, if_pos hn, lookupPlayer_append, hn,
    Option.none_or]
  simp [lookupPlayer, newNetworkPlayer]

/-- A `lobby_update` from a known sender only refreshes `lastSeen`. -/
theorem lookup_processLobby_self_some (g : Game) (m : NetworkMessage) (now : ℤ)
    (p : NetworkPlayer) (ht : m.msgType = "lobby_update")
    (hp : lookupPlayer g.networkPlayers m.playerID = some p) :
    lookupPlayer (processNetworkMessage g m now).networkPlayers m.playerID =
      some { p with lastSeen := now } := by
  rw [processLobby_networkPlayers g m now ht, if_neg (by simp [hp]),
    lookupPlayer_updatePlayer_self, hp]
  · rfl
  · exact fun q => rfl

/-- Records are never removed by message processing. -/
theorem lookup_process_isSome (g : Game) (m : NetworkMessage) (now : ℤ) (i : ℤ)
    (h : (lookupPlayer g.networkPlayers i).isSome) :
    (lookupPlayer (processNetworkMessage g m now).networkPlayers i).isSome := by
  by_cases hpid : m.playerID = i
  · subst hpid
    by_cases h1 : m.msgType = "player_update"
    · obtain ⟨p, hp, -⟩ := lookup_processPlayer_self g m now h1
      simp [hp]
    · by_cases h2 : m.msgType = "lobby_update"
      · obtain ⟨p, hp⟩ := Option.isSome_iff_exists.mp h
        rw [lookup_processLobby_self_some g m now p h2 hp]
        rfl
      · rw [process_unknown_type g m now h1 h2]
        exact h
  · rw [lookup_process_other g m now i hpid]
    exact h

/-- Invariant behind C10: across a receive sequence whose messages from `i`
are all lobby updates, the record for `i` (once it exists) carries the zero
snapshot. -/
theorem processMessages_lobby_only_aux :
    ∀ (ms : List (NetworkMessage × ℤ)) (g : Game) (i : ℤ),
      (∀ m ∈ ms, (m.1).playerID = i → (m.1).msgType = "lobby_update") →
      (lookupPlayer g.networkPlayers i = none ∨
        ∃ p, lookupPlayer g.networkPlayers i = some p ∧ p.hole = zeroHole) →
      ((∃ m ∈ ms, (m.1).playerID = i) ∨ (lookupPlayer g.networkPlayers i).isSome) →
      ∃ p, lookupPlayer (processMessages g ms).networkPlayers i = some p ∧
        p.hole = zeroHole := by
  intro ms
  induction ms with
  | nil =>
    intro g i _ hInv hSome
    rcases hSome with ⟨m, hm, _⟩ | hSome
    · exact absurd hm (List.not_mem_nil m)
    · rcases hInv with hnone | hp
      · rw [hnone] at hSome
        exact absurd hSome (by simp)
      · exact hp
  | cons m ms ih =>
    intro g i h1 hInv hSome
    have hhead : (m.1).playerID = i → (m.1).msgType = "lobby_update" :=
      fun hp => h1 m (List.mem_cons_self m ms) hp
    have hInv' : lookupPlayer (processNetworkMessage g m.1 m.2).networkPlayers i = none ∨
        ∃ p, lookupPlayer (processNetworkMessage g m.1 m.2).networkPlayers i = some p ∧
          p.hole = zeroHole := by
      by_cases hpid : (m.1).playerID = i
      · have ht := hhead hpid
        rcases hInv with hnone | ⟨p, hp, hz⟩
        · right
          have hl := lookup_processLobby_self_none g m.1 m.2 ht
            (by rw [hpid]; exact hnone)
          rw [hpid] at hl
          exact ⟨_, hl, rfl⟩
        · right
          have hl := lookup_processLobby_self_some g m.1 m.2 p ht
            (by rw [hpid]; exact hp)
          rw [hpid] at hl
          exact ⟨_, hl, hz⟩
      · rw [lookup_process_other g m.1 m.2 i hpid]
        exact hInv
    have hSome' : (∃ x ∈ ms, (x.1).playerID = i) ∨
        (lookupPlayer (processNetworkMessage g m.1 m.2).networkPlayers i).isSome := by
      rcases hSome with ⟨x, hx, hxid⟩ | hs
      · rcases List.mem_cons.mp hx with rfl | hx'
        · right
          have ht := hhead hxid
          rcases hInv with hnone | ⟨p, hp, -⟩
          · have hl := lookup_processLobby_self_none g x.1 x.2 ht
              (by rw [hxid]; exact hnone)
            rw [hxid] at hl
            rw [hl]
            rfl
          · have hl := lookup_processLobby_self_some g x.1 x.2 p ht
              (by rw [hxid]; exact hp)
            rw [hxid] at hl
            rw [hl]
            rfl
        · exact Or.inl ⟨x, hx', hxid⟩
      · exact Or.inr (lookup_process_isSome g m.1 m.2 i hs)
    have h1' : ∀ x ∈ ms, (x.1).playerID = i → (x.1).msgType = "lobby_update" :=
      fun x hx => h1 x (List.mem_cons_of_mem m hx)
    exact ih (processNetworkMessage g m.1 m.2) i h1' hInv' hSome'

/-- C10: if every message received from an unknown id is a lobby update, the
record created for that id carries the zero snapshot — position (0,0),
size 0, score 0, animation 0 — and the snapshot stays zero until a player
update arrives from that id. -/
theorem c10_lobby_created_zero_snapshot :
    ∀ (g : Game) (i : ℤ) (ms : List (NetworkMessage × ℤ)),
      lookupPlayer g.networkPlayers i = none →
      (∀ m ∈ ms, (m.1).playerID = i → (m.1).msgType = "lobby_update") →
      (∃ m ∈ ms, (m.1).playerID = i) →
      ∃ p, lookupPlayer (processMessages g ms).networkPlayers i = some p ∧
        p.hole = zeroHole := by
  intro g i ms hn h1 hm
  exact processMessages_lobby_only_aux ms g i h1 (Or.inl hn) (Or.inl hm)

theorem c10_lobby_created_zero_snapshot_witness :
    (lookupPlayer (newGame 1 "h").networkPlayers 7 = none ∧
      (∀ m ∈ witnessLobbyMessages, (m.1).playerID = 7 → (m.1).msgType = "lobby_update") ∧
      (∃ m ∈ witnessLobbyMessages, (m.1).playerID = 7)) ∧
    (∃ p, lookupPlayer (processMessages (newGame 1 "h")
        witnessLobbyMessages).networkPlayers 7 = some p ∧ p.hole = zeroHole) :=
  ⟨⟨by decide, by decide, by decide⟩,
    c10_lobby_created_zero_snapshot (newGame 1 "h") 7 witnessLobbyMessages
      (by decide) (by decide) (by decide)⟩

/-- Effect of a `player_update` on the stored ids: the sender id is appended
when unknown, otherwise the ids are unchanged. -/
theorem ids_processPlayer (g : Game) (m : NetworkMessage) (now : ℤ)
    (ht : m.msgType = "player_update") :
    (processNetworkMessage g m now).networkPlayers.map NetworkPlayer.id =
      (if lookupPlayer g.networkPlayers m.playerID = none then
        g.networkPlayers.map NetworkPlayer.id ++ [m.playerID]
       else g.networkPlayers.map NetworkPlayer.id) := by
  rw [processPlayer_networkPlayers g m now ht, ids_updatePlayer]
  · by_cases hc : lookupPlayer g.networkPlayers m.playerID = none
    · rw [if_pos hc, if_pos hc]
      simp [newNetworkPlayer]
    · rw [if_neg hc, if_neg hc]
  · exact fun p => rfl

/-- A `player_update` preserves distinctness of the stored ids. -/
theorem nodup_ids_processPlayer (g : Game) (m : NetworkMessage) (now : ℤ)
    (ht : m.msgType = "player_update")
    (hnd : (g.networkPlayers.map NetworkPlayer.id).Nodup) :
    ((processNetworkMessage g m now).networkPlayers.map NetworkPlayer.id).Nodup := by
  rw [ids_processPlayer g m now ht]
  by_cases hc : lookupPlayer g.networkPlayers m.playerID = none
  · rw [if_pos hc]
    have hnotmem : m.playerID ∉ g.networkPlayers.map NetworkPlayer.id := by
      intro hmem
      rw [← lookupPlayer_isSome_iff] at hmem
      rw [hc] at hmem
      exact absurd hmem (by simp)
    simp [List.nodup_append, hnd, hnotmem]
  · rw [if_neg hc]
    exact hnd

/-- Invariant behind C1: over any sequence of player updates, the stored ids
stay distinct, the id set is the initial one joined with the senders, and the
record of each sender carries its most recent payload and arrival time. -/
theorem applyPlayerUpdates_spec :
    ∀ (us : List (ℤ × PlayerUpdate × ℤ)) (g : Game),
      ((g.networkPlayers.map NetworkPlayer.id).Nodup) →
      (((applyPlayerUpdates g us).networkPlayers.map NetworkPlayer.id).Nodup
       ∧ (∀ i, i ∈ (applyPlayerUpdates g us).networkPlayers.map NetworkPlayer.id ↔
            (i ∈ g.networkPlayers.map NetworkPlayer.id ∨ i ∈ us.map (fun m => m.1)))
       ∧ (∀ i,
           (lastFor us i = none →
             lookupPlayer (applyPlayerUpdates g us).networkPlayers i =
               lookupPlayer g.networkPlayers i)
           ∧ (∀ u now, lastFor us i = some (u, now) →
             ∃ p, lookupPlayer (applyPlayerUpdates g us).networkPlayers i = some p ∧
               p.hole.position = u.position ∧ p.hole.size = u.size ∧
               p.hole.score = u.score ∧ p.hole.animation = u.animation ∧
               p.lastSeen = now))) := by
  intro us
  induction us with
  | nil =>
    intro g hnd
    refine ⟨hnd, fun i => by simp [applyPlayerUpdates],
      fun i => ⟨fun _ => rfl, fun u now h => absurd h (by simp [lastFor])⟩⟩
  | cons mu us ih =>
    intro g hnd
    have ht : (mkPlayerUpdateMessage mu.1 mu.2.1).msgType = "player_update" := rfl
    have hnd' := nodup_ids_processPlayer g (mkPlayerUpdateMessage mu.1 mu.2.1) mu.2.2 ht hnd
    obtain ⟨Hnd, Hmem, Hlk⟩ :=
      ih (processNetworkMessage g (mkPlayerUpdateMessage mu.1 mu.2.1) mu.2.2) hnd'
    have happ : applyPlayerUpdates g (mu :: us) =
        applyPlayerUpdates
          (processNetworkMessage g (mkPlayerUpdateMessage mu.1 mu.2.1) mu.2.2) us := rfl
    have hidg' : ∀ j,
        j ∈ (processNetworkMessage g (mkPlayerUpdateMessage mu.1 mu.2.1)
              mu.2.2).networkPlayers.map NetworkPlayer.id ↔
          (j ∈ g.networkPlayers.map NetworkPlayer.id ∨ j = mu.1) := by
      intro j
      rw [ids_processPlayer g (mkPlayerUpdateMessage mu.1 mu.2.1) mu.2.2 ht]
      simp only [mkPlayerUpdateMessage]
      by_cases hc : lookupPlayer g.networkPlayers mu.1 = none
      · rw [if_pos hc]
        simp [List.mem_append]
      · rw [if_neg hc]
        constructor
        · exact Or.inl
        · rintro (h | rfl)
          · exact h
          · rw [← lookupPlayer_isSome_iff]
            exact Option.ne_none_iff_isSome.mp hc
    refine ⟨?_, ?_, ?_⟩
    · rw [happ]
      exact Hnd
    · intro i
      rw [happ, List.map_cons, List.mem_cons]
      constructor
      · intro h
        rcases (Hmem i).mp h with h' | h'
        · rcases (hidg' i).mp h' with h'' | h''
          · exact Or.inl h''
          · exact Or.inr (Or.inl h'')
        · exact Or.inr (Or.inr h')
      · rintro (h | h | h)
        · exact (Hmem i).mpr (Or.inl ((hidg' i).mpr (Or.inl h)))
        · exact (Hmem i).mpr (Or.inl ((hidg' i).mpr (Or.inr h)))
        · exact (Hmem i).mpr (Or.inr h)
    · intro i
      constructor
      · intro hnone
        have hrest : lastFor us i = none := by
          unfold lastFor at hnone
          cases hl : lastFor us i with
          | none => rfl
          | some r =>
            rw [hl] at hnone
            exact absurd hnone (by simp)
        have hne : mu.1 ≠ i := by
          intro he
          unfold lastFor at hnone
          rw [hrest, if_pos he] at hnone
          exact absurd hnone (by simp)
        rw [happ, (Hlk i).1 hrest]
        exact lookup_process_other g (mkPlayerUpdateMessage mu.1 mu.2.1) mu.2.2 i hne
      · intro u now hsome
        rw [happ]
        cases hl : lastFor us i with
        | some r =>
          have hres : r = (u, now) := by
            unfold lastFor at hsome
            rw [hl] at hsome
            simpa using hsome
          exact (Hlk i).2 u now (by rw [hl, hres])
        | none =>
          have hmi : mu.1 = i := by
            by_contra hmi
            unfold lastFor at hsome
            rw [hl, if_neg hmi] at hsome
            exact absurd hsome (by simp)
          have hmu2 : mu.2 = (u, now) := by
            unfold lastFor at hsome
            rw [hl, if_pos hmi] at hsome
            simpa using hsome
          have h21 : mu.2.1 = u := by rw [hmu2]
          have h22 : mu.2.2 = now := by rw [hmu2]
          rw [(Hlk i).1 hl, hmi, h21, h22]
          have hself := lookup_processPlayer_self g (mkPlayerUpdateMessage i u) now rfl
          simp only [mkPlayerUpdateMessage, asPlayerUpdate] at hself
          exact hself

/-- C1: applying a sequence of player updates to an empty peer map yields
exactly one record per distinct sender, and each record holds the snapshot
(position, size, score, animation) and arrival time of the sender's most
recently applied update. -/
theorem c1_peer_map_latest_snapshot :
    ∀ (g : Game) (us : List (ℤ × PlayerUpdate × ℤ)), g.networkPlayers = [] →
      ∀ i : ℤ,
        (((applyPlayerUpdates g us).networkPlayers.map NetworkPlayer.id).count i =
          (if i ∈ us.map (fun m => m.1) then 1 else 0))
        ∧ (∀ u now, lastFor us i = some (u, now) →
            ∃ p, lookupPlayer (applyPlayerUpdates g us).networkPlayers i = some p ∧
              p.hole.position = u.position ∧ p.hole.size = u.size ∧
              p.hole.score = u.score ∧ p.hole.animation = u.animation ∧
              p.lastSeen = now) := by
  intro g us he i
  have hnd : (g.networkPlayers.map NetworkPlayer.id).Nodup := by
    rw [he]
    simp
  obtain ⟨Hnd, Hmem, Hlk⟩ := applyPlayerUpdates_spec us g hnd
  constructor
  · have hmi := Hmem i
    rw [he] at hmi
    simp only [List.map_nil, List.not_mem_nil, false_or] at hmi
    by_cases hin : i ∈ us.map (fun m => m.1)
    · rw [if_pos hin]
      exact (List.nodup_iff_count_eq_one.mp Hnd) i (hmi.mpr hin)
    · rw [if_neg hin]
      exact List.count_eq_zero.mpr (fun hmem => hin (hmi.mp hmem))
  · exact (Hlk i).2

theorem c1_peer_map_latest_snapshot_witness :
    ((newGame 1 "h").networkPlayers = [] ∧
      lastFor witnessUpdates 3 =
        some ({ position := ⟨7, 8⟩, size := 22, score := 5, animation := 3 }, 12)) ∧
    ((((applyPlayerUpdates (newGame 1 "h") witnessUpdates).networkPlayers.map
          NetworkPlayer.id).count 3 =
        (if (3 : ℤ) ∈ witnessUpdates.map (fun m => m.1) then 1 else 0))
      ∧ ∃ p, lookupPlayer (applyPlayerUpdates (newGame 1 "h")
            witnessUpdates).networkPlayers 3 = some p ∧
          p.hole.position = (⟨7, 8⟩ : Vector2) ∧ p.hole.size = 22 ∧
          p.hole.score = 5 ∧ p.hole.animation = 3 ∧ p.lastSeen = 12) :=
  ⟨⟨by decide, by decide⟩,
    (c1_peer_map_latest_snapshot (newGame 1 "h") witnessUpdates (by decide) 3).1,
    (c1_peer_map_latest_snapshot (newGame 1 "h") witnessUpdates (by decide) 3).2
      { position := ⟨7, 8⟩, size := 22, score := 5, animation := 3 } 12 (by decide)⟩

/-- C8: encoding a wire message of either supported kind and decoding the
resulting frame yields the original message; this covers all payload values,
in particular size 0, score 0 and the omitted empty `server_ip`. -/
theorem c8_wire_roundtrip :
    ∀ (pid : ℤ) (u : PlayerUpdate) (v : LobbyUpdate),
      decodeNetworkMessage (encodeNetworkMessage (mkPlayerUpdateMessage pid u)) =
        some (mkPlayerUpdateMessage pid u) ∧
      decodeNetworkMessage (encodeNetworkMessage (mkLobbyUpdateMessage pid v)) =
        some (mkLobbyUpdateMessage pid v) := by
  intro pid u v
  constructor
  · simp [mkPlayerUpdateMessage, encodeNetworkMessage, decodeNetworkMessage,
      encodePlayerUpdateJson, encodeVector2, jLookup, getStrField, getIntField,
      getRatField, getVector2Field, decodeVector2Json, decodePlayerUpdateJson]
  · by_cases hs : v.serverIP = ""
    · simp [mkLobbyUpdateMessage, encodeNetworkMessage, decodeNetworkMessage,
        encodeLobbyUpdateJson, jLookup, getStrField, getIntField, getBoolField,
        decodeLobbyUpdateJson, hs]
      rw [← hs]
    · simp [mkLobbyUpdateMessage, encodeNetworkMessage, decodeNetworkMessage,
        encodeLobbyUpdateJson, jLookup, getStrField, getIntField, getBoolField,
        decodeLobbyUpdateJson, hs]

/-- Element lookup at the seam of an append. -/
theorem getElem?_append_cons (pre rest : List PlayerResult) (cur : PlayerResult) :
    (pre ++ cur :: rest)[pre.length]? = some cur := by
  rw [List.getElem?_append_right (le_refl _)]
  simp

/-- Setting the element at the seam of an append. -/
theorem set_append_cons (pre rest : List PlayerResult) (cur y : PlayerResult) :
    (pre ++ cur :: rest).set pre.length y = pre ++ y :: rest := by
  induction pre with
  | nil => rfl
  | cons a pre ih =>
    simp only [List.cons_append, List.length_cons, List.set_cons_succ]
    rw [ih]

/-- `selectMax` returns a remainder of the same length as its input. -/
theorem selectMax_length :
    ∀ (l : List PlayerResult) (cur : PlayerResult),
      (selectMax cur l).2.length = l.length := by
  intro l
  induction l with
  | nil => intro cur; rfl
  | cons x xs ih =>
    intro cur
    by_cases h : cur.size < x.size <;> simp [selectMax, h, ih]

/-- The fuelled inner loop computes `selectMax` over the unscanned suffix:
position `i` holds `cur`, `t` is the already-scanned segment, `s` the
remaining one. -/
theorem innerFromFuel_spec (i : ℕ) :
    ∀ (s t pre : List PlayerResult) (cur : PlayerResult) (fuel : ℕ),
      pre.length = i → s.length ≤ fuel →
      innerFromFuel i fuel (pre ++ cur :: (t ++ s)) (i + 1 + t.length) =
        pre ++ (selectMax cur s).1 :: (t ++ (selectMax cur s).2) := by
  intro s
  induction s with
  | nil =>
    intro t pre cur fuel hpre _
    have hlen : (pre ++ cur :: (t ++ ([] : List PlayerResult))).length =
        i + 1 + t.length := by
      simp [hpre]
      omega
    cases fuel with
    | zero => simp [innerFromFuel, selectMax]
    | succ f =>
      simp only [innerFromFuel]
      rw [if_neg (by rw [hlen]; omega)]
      simp [selectMax]
  | cons x s ih =>
    intro t pre cur fuel hpre hfuel
    cases fuel with
    | zero => exact absurd hfuel (by simp)
    | succ f =>
      have hflen : s.length ≤ f := by simpa using hfuel
      have hjlt : i + 1 + t.length < (pre ++ cur :: (t ++ x :: s)).length := by
        simp [hpre]
        omega
      have hgeti : (pre ++ cur :: (t ++ x :: s))[i]? = some cur := by
        rw [← hpre]
        exact getElem?_append_cons pre (t ++ x :: s) cur
      have hassoc : pre ++ cur :: (t ++ x :: s) = (pre ++ cur :: t) ++ x :: s := by
        simp
      have hlen2 : (pre ++ cur :: t).length = i + 1 + t.length := by
        simp [hpre]
        omega
      have hgetj : (pre ++ cur :: (t ++ x :: s))[i + 1 + t.length]? = some x := by
        rw [hassoc, ← hlen2]
        exact getElem?_append_cons (pre ++ cur :: t) s x
      have hcmp : swapGreater (pre ++ cur :: (t ++ x :: s)) i (i + 1 + t.length) =
          decide (cur.size < x.size) := by
        unfold swapGreater
        rw [hgeti, hgetj]
      have hswap : swapIdx (pre ++ cur :: (t ++ x :: s)) i (i + 1 + t.length) =
          pre ++ x :: (t ++ cur :: s) := by
        unfold swapIdx
        rw [hgeti, hgetj]
        dsimp only
        have hset1 : (pre ++ cur :: (t ++ x :: s)).set i x =
            pre ++ x :: (t ++ x :: s) := by
          rw [← hpre]
          exact set_append_cons pre (t ++ x :: s) cur x
        rw [hset1]
        have hassoc2 : pre ++ x :: (t ++ x :: s) = (pre ++ x :: t) ++ x :: s := by
          simp
        have hlen3 : (pre ++ x :: t).length = i + 1 + t.length := by
          simp [hpre]
          omega
        rw [hassoc2, ← hlen3, set_append_cons (pre ++ x :: t) s x cur]
        simp
      simp only [innerFromFuel]
      rw [if_pos hjlt, hcmp]
      by_cases hlt : cur.size < x.size
      · rw [if_pos (by simpa using hlt), hswap]
        have harr : pre ++ x :: (t ++ cur :: s) =
            pre ++ x :: ((t ++ [cur]) ++ s) := by simp
        have hj2 : i + 1 + t.length + 1 = i + 1 + (t ++ [cur]).length := by
          simp only [List.length_append, List.length_cons, List.length_nil]
          omega
        rw [harr, hj2, ih (t ++ [cur]) pre x f hpre hflen]
        simp [selectMax, hlt]
      · rw [if_neg (by simpa using hlt)]
        have harr : pre ++ cur :: (t ++ x :: s) =
            pre ++ cur :: ((t ++ [x]) ++ s) := by simp
        have hj2 : i + 1 + t.length + 1 = i + 1 + (t ++ [x]).length := by
          simp only [List.length_append, List.length_cons, List.length_nil]
          omega
        rw [harr, hj2, ih (t ++ [x]) pre cur f hpre hflen]
        simp [selectMax, hlt]

/-- One full inner pass equals one `selectMax` step. -/
theorem innerFrom_spec (pre : List PlayerResult) (cur : PlayerResult)
    (s : List PlayerResult) :
    innerFrom (pre ++ cur :: s) pre.length (pre.length + 1) =
      pre ++ (selectMax cur s).1 :: (selectMax cur s).2 := by
  have h := innerFromFuel_spec pre.length s [] pre cur
    (pre ++ cur :: s).length rfl
    (by simp only [List.length_append, List.length_cons]; omega)
  simpa [innerFrom] using h

/-- The fuelled outer loop computes the `selectMax` sort of the unsorted
suffix, leaving the sorted prefix in place. -/
theorem outerFromFuel_spec :
    ∀ (n : ℕ) (rest pre : List PlayerResult) (fuel : ℕ),
      rest.length = n → n ≤ fuel →
      outerFromFuel fuel (pre ++ rest) pre.length = pre ++ sortLoopAux n rest := by
  intro n
  induction n with
  | zero =>
    intro rest pre fuel hlen _
    have hnil : rest = [] := List.eq_nil_of_length_eq_zero hlen
    subst hnil
    cases fuel with
    | zero => simp [outerFromFuel, sortLoopAux]
    | succ f =>
      simp only [outerFromFuel, sortLoopAux]
      rw [if_neg (by simp)]
  | succ n ih =>
    intro rest pre fuel hlen hfuel
    obtain ⟨x, xs, rfl⟩ : ∃ y ys, rest = y :: ys := by
      cases rest with
      | nil => simp at hlen
      | cons y ys => exact ⟨y, ys, rfl⟩
    obtain ⟨f, rfl⟩ : ∃ g, fuel = g + 1 := by
      cases fuel with
      | zero => omega
      | succ f => exact ⟨f, rfl⟩
    have hxs : xs.length = n := by simpa using hlen
    simp only [outerFromFuel]
    by_cases he : xs = []
    · subst he
      have hn : n = 0 := by simpa using hxs.symm
      subst hn
      rw [if_neg (by simp)]
      simp [sortLoopAux, selectMax]
    · rw [if_pos (by
        simp only [List.length_append, List.length_cons]
        have : 0 < xs.length := List.length_pos.mpr he
        omega)]
      rw [innerFrom_spec pre x xs]
      have hre : pre ++ (selectMax x xs).1 :: (selectMax x xs).2 =
          (pre ++ [(selectMax x xs).1]) ++ (selectMax x xs).2 := by simp
      have hlen1 : pre.length + 1 = (pre ++ [(selectMax x xs).1]).length := by simp
      rw [hre, hlen1, ih (selectMax x xs).2 (pre ++ [(selectMax x xs).1]) f
        (by rw [selectMax_length]; exact hxs) (by omega)]
      simp [sortLoopAux]

/-- The double swap loop of `getGameResults` is the `selectMax` sort. -/
theorem getGameResults_eq_sortLoop (g : Game) :
    getGameResults g = sortLoop (resultsUnsorted g) := by
  have h := outerFromFuel_spec (resultsUnsorted g).length (resultsUnsorted g) []
    (resultsUnsorted g).length rfl (le_refl _)
  simpa [getGameResults, sortLoop] using h

/-- Equation lemma for `selectMax` when the scanned element is larger. -/
theorem selectMax_cons_pos (cur x : PlayerResult) (xs : List PlayerResult)
    (h : cur.size < x.size) :
    selectMax cur (x :: xs) = ((selectMax x xs).1, cur :: (selectMax x xs).2) := by
  simp [selectMax, h]

/-- Equation lemma for `selectMax` when the scanned element is not larger. -/
theorem selectMax_cons_neg (cur x : PlayerResult) (xs : List PlayerResult)
    (h : ¬cur.size < x.size) :
    selectMax cur (x :: xs) = ((selectMax cur xs).1, x :: (selectMax cur xs).2) := by
  simp [selectMax, h]

/-- One `selectMax` step permutes its input. -/
theorem selectMax_perm :
    ∀ (l : List PlayerResult) (cur : PlayerResult),
      ((selectMax cur l).1 :: (selectMax cur l).2).Perm (cur :: l) := by
  intro l
  induction l with
  | nil => intro cur; exact List.Perm.refl _
  | cons x xs ih =>
    intro cur
    by_cases h : cur.size < x.size
    · rw [selectMax_cons_pos cur x xs h]
      exact (List.Perm.swap cur (selectMax x xs).1 (selectMax x xs).2).trans
        ((ih x).cons cur)
    · rw [selectMax_cons_neg cur x xs h]
      exact (List.Perm.swap x (selectMax cur xs).1 (selectMax cur xs).2).trans
        (((ih cur).cons x).trans (List.Perm.swap cur x xs))

/-- `selectMax` returns a maximum of its input. -/
theorem selectMax_max :
    ∀ (l : List PlayerResult) (cur : PlayerResult),
      cur.size ≤ (selectMax cur l).1.size ∧
        ∀ y ∈ (selectMax cur l).2, y.size ≤ (selectMax cur l).1.size := by
  intro l
  induction l with
  | nil => intro cur; exact ⟨le_refl _, by simp [selectMax]⟩
  | cons x xs ih =>
    intro cur
    by_cases h : cur.size < x.size
    · rw [selectMax_cons_pos cur x xs h]
      refine ⟨(le_of_lt h).trans (ih x).1, fun y hy => ?_⟩
      rcases List.mem_cons.mp hy with rfl | hy'
      · exact (le_of_lt h).trans (ih x).1
      · exact (ih x).2 y hy'
    · rw [selectMax_cons_neg cur x xs h]
      refine ⟨(ih cur).1, fun y hy => ?_⟩
      rcases List.mem_cons.mp hy with rfl | hy'
      · exact (not_lt.mp h).trans (ih cur).1
      · exact (ih cur).2 y hy'

/-- The `selectMax` sort permutes its input. -/
theorem sortLoopAux_perm :
    ∀ (n : ℕ) (l : List PlayerResult), l.length = n → (sortLoopAux n l).Perm l := by
  intro n
  induction n with
  | zero =>
    intro l h
    have hnil := List.eq_nil_of_length_eq_zero h
    subst hnil
    exact List.Perm.refl _
  | succ n ih =>
    intro l h
    obtain ⟨x, xs, rfl⟩ : ∃ y ys, l = y :: ys := by
      cases l with
      | nil => simp at h
      | cons y ys => exact ⟨y, ys, rfl⟩
    simp only [sortLoopAux]
    have h2 : (selectMax x xs).2.length = n := by
      rw [selectMax_length]
      simpa using h
    exact ((ih _ h2).cons _).trans (selectMax_perm xs x)

/-- The `selectMax` sort is sorted by size, descending. -/
theorem sortLoopAux_sorted :
    ∀ (n : ℕ) (l : List PlayerResult), l.length = n →
      List.Pairwise (fun a b => b.size ≤ a.size) (sortLoopAux n l) := by
  intro n
  induction n with
  | zero =>
    intro l h
    have hnil := List.eq_nil_of_length_eq_zero h
    subst hnil
    simp [sortLoopAux]
  | succ n ih =>
    intro l h
    obtain ⟨x, xs, rfl⟩ : ∃ y ys, l = y :: ys := by
      cases l with
      | nil => simp at h
      | cons y ys => exact ⟨y, ys, rfl⟩
    have h2 : (selectMax x xs).2.length = n := by
      rw [selectMax_length]
      simpa using h
    simp only [sortLoopAux]
    rw [List.pairwise_cons]
    refine ⟨fun b hb => ?_, ih _ h2⟩
    have hbys : b ∈ (selectMax x xs).2 := ((sortLoopAux_perm n _ h2).mem_iff).mp hb
    exact (selectMax_max xs x).2 b hbys

/-- C4 (amended): `getGameResults` returns all known peers plus the local
player sorted by size in descending order — on the example snapshots
{A: 40, B: 55, Self: 30} the order is [B, A, Self] — but the double swap
loop is not a stable sort: players of equal size may lose their prior
relative order. -/
theorem c4_results_sorted_desc :
    (∀ g : Game, (getGameResults g).Perm (resultsUnsorted g) ∧
       List.Pairwise (fun a b => b.size ≤ a.size) (getGameResults g))
    ∧ getGameResults rankingExampleGame =
        [{ name := "B", size := 55, score := 0 },
         { name := "A", size := 40, score := 0 },
         { name := "You", size := 30, score := 0 }] := by
  constructor
  · intro g
    rw [getGameResults_eq_sortLoop]
    exact ⟨sortLoopAux_perm _ _ rfl, sortLoopAux_sorted _ _ rfl⟩
  · decide

/-- C4 counterexample to stability as claimed: before sorting, the local
player (size 5) precedes peer C (size 5); after sorting, C precedes the
local player, so equal-size players do not keep their prior relative
order. -/
theorem c4_stability_counterexample :
    resultsUnsorted tieExampleGame =
      [{ name := "You", size := 5, score := 0 },
       { name := "B", size := 7, score := 0 },
       { name := "C", size := 5, score := 0 },
       { name := "D", size := 7, score := 0 }] ∧
    getGameResults tieExampleGame =
      [{ name := "B", size := 7, score := 0 },
       { name := "D", size := 7, score := 0 },
       { name := "C", size := 5, score := 0 },
       { name := "You", size := 5, score := 0 }] := by decide
